import Mathlib

/-!
Verification of the sonar-log binary decoder of `src/app.js`
(`parseSonarFile`, `parseFrame`, `getAverage`).

Modelling conventions:

* A byte buffer (the JS `ArrayBuffer` viewed through a `DataView`) is a
  `List Nat` of byte values; all `DataView` reads are little-endian and
  bounds-checked, an out-of-bounds read raises `JsError.rangeError`
  (JS throws a `RangeError`).
* JavaScript numbers are modelled by `JsNum`: NaN, signed infinities, or an
  exact fraction `Frac` (integer numerator, positive denominator, not
  normalized so that every operation is kernel-computable).  IEEE-754 double
  rounding is abstracted to exact arithmetic; 32-bit float fields decode to
  their exact values, NaN and infinity propagation follows the JS rules.
  `Frac.toRat` maps a fraction to the rational it denotes.
* `new Date(s * 1000)` is modelled by the numeric value `s` (seconds).
* The `longitude` / `latitude` fields (built from `Math.atan` / `Math.exp` /
  `Math.PI`, whose double-precision behavior is implementation-defined in
  ECMAScript) are not modelled; the record keeps the integers `x`, `y` they
  are computed from.
* `Record` additionally keeps the ghost fields `position`, `ms_offset` and
  `bottom_index` (values the JS code computes for the frame but does not
  store on the returned object); they only serve to state properties.
* The frame-scanning `while` loop runs with explicit fuel; one unit is spent
  per iteration and every iteration advances the cursor by at least one
  byte while the loop only continues at positions below `buf.length`, so the
  `buf.length` units `parseSonarFile` passes always outlast the loop.
-/

namespace SonarWeb

set_option maxRecDepth 1000000

/-- An exact, non-normalized fraction: `num / den` with `0 < den`. -/
structure Frac where
  num : Int
  den : Nat
  den_pos : 0 < den

instance : DecidableEq Frac := fun a b =>
  decidable_of_iff (a.num = b.num ∧ a.den = b.den) (by
    constructor
    · rcases a with ⟨an, ad, ha⟩
      rcases b with ⟨bn, bd, hb⟩
      rintro ⟨h1, h2⟩
      simp_all
    · rintro rfl
      exact ⟨rfl, rfl⟩)

/-- The rational value a fraction denotes. -/
def Frac.toRat (f : Frac) : ℚ := (f.num : ℚ) / (f.den : ℚ)

/-- Embed an integer as a fraction. -/
def Frac.ofInt (n : Int) : Frac := ⟨n, 1, Nat.one_pos⟩

/-- Exact fraction addition (no normalization). -/
def Frac.add (a b : Frac) : Frac :=
  ⟨a.num * b.den + b.num * a.den, a.den * b.den, Nat.mul_pos a.den_pos b.den_pos⟩

/-- Exact fraction negation. -/
def Frac.neg (a : Frac) : Frac := ⟨-a.num, a.den, a.den_pos⟩

/-- Exact fraction multiplication (no normalization). -/
def Frac.mul (a b : Frac) : Frac :=
  ⟨a.num * b.num, a.den * b.den, Nat.mul_pos a.den_pos b.den_pos⟩

/-- Exact fraction division by a fraction with positive numerator. -/
def Frac.divPos (a b : Frac) (h : 0 < b.num) : Frac :=
  ⟨a.num * b.den, a.den * b.num.toNat, Nat.mul_pos a.den_pos (by omega)⟩

/-- Exact fraction division by a fraction with negative numerator. -/
def Frac.divNeg (a b : Frac) (h : b.num < 0) : Frac :=
  ⟨-(a.num * b.den), a.den * (-b.num).toNat, Nat.mul_pos a.den_pos (by omega)⟩

/-- A JavaScript number: NaN, a signed infinity (`inf true` is `+∞`),
or an exact finite value. -/
inductive JsNum where
  | nan : JsNum
  | inf : Bool → JsNum
  | fin : Frac → JsNum
deriving DecidableEq

/-- Embed an integer. -/
def JsNum.ofInt (n : Int) : JsNum := .fin (Frac.ofInt n)

/-- Embed a natural number. -/
def JsNum.ofNat (n : Nat) : JsNum := .ofInt n

/-- JS `<` on numbers (false whenever an operand is NaN). -/
def jsLt : JsNum → JsNum → Bool
  | .nan, _ => false
  | _, .nan => false
  | .fin a, .fin b => decide (a.num * b.den < b.num * a.den)
  | .fin _, .inf s => s
  | .inf s, .fin _ => !s
  | .inf s, .inf t => !s && t

/-- JS `<=` on numbers (false whenever an operand is NaN). -/
def jsLe : JsNum → JsNum → Bool
  | .nan, _ => false
  | _, .nan => false
  | .fin a, .fin b => decide (a.num * b.den ≤ b.num * a.den)
  | .fin _, .inf s => s
  | .inf s, .fin _ => !s
  | .inf s, .inf t => !s || t

/-- JS `>=` on numbers. -/
def jsGe (a b : JsNum) : Bool := jsLe b a

/-- JS addition. -/
def jsAdd : JsNum → JsNum → JsNum
  | .nan, _ => .nan
  | _, .nan => .nan
  | .inf s, .inf t => if s = t then .inf s else .nan
  | .inf s, .fin _ => .inf s
  | .fin _, .inf t => .inf t
  | .fin a, .fin b => .fin (a.add b)

/-- JS negation. -/
def jsNeg : JsNum → JsNum
  | .nan => .nan
  | .inf s => .inf (!s)
  | .fin a => .fin a.neg

/-- JS subtraction. -/
def jsSub (a b : JsNum) : JsNum := jsAdd a (jsNeg b)

/-- JS multiplication (`±∞ * 0` is NaN). -/
def jsMul : JsNum → JsNum → JsNum
  | .nan, _ => .nan
  | _, .nan => .nan
  | .inf s, .inf t => .inf (s == t)
  | .inf s, .fin b =>
      if b.num = 0 then .nan else .inf (s == decide (0 < b.num))
  | .fin a, .inf t =>
      if a.num = 0 then .nan else .inf (t == decide (0 < a.num))
  | .fin a, .fin b => .fin (a.mul b)

/-- JS division (`0/0` is NaN, `x/0` a signed infinity, `x/±∞` is zero;
the sign of zero is not modelled). -/
def jsDiv : JsNum → JsNum → JsNum
  | .nan, _ => .nan
  | _, .nan => .nan
  | .inf _, .inf _ => .nan
  | .inf s, .fin b => .inf (s == decide (0 ≤ b.num))
  | .fin _, .inf _ => .ofInt 0
  | .fin a, .fin b =>
      if h : 0 < b.num then .fin (a.divPos b h)
      else if h2 : b.num < 0 then .fin (a.divNeg b h2)
      else if a.num = 0 then .nan
      else .inf (decide (0 < a.num))

/-- JS `Math.floor`. -/
def jsFloor : JsNum → JsNum
  | .nan => .nan
  | .inf s => .inf s
  | .fin a => .ofInt (a.num.fdiv a.den)

/-- Byte at an index (only ever used in bounds). -/
def byteAt (buf : List Nat) (i : Nat) : Nat := buf.getD i 0

/-- Value of `n` little-endian bytes starting at `off`. -/
def leVal (buf : List Nat) (off : Nat) : Nat → Nat
  | 0 => 0
  | k + 1 => byteAt buf off + 256 * leVal buf (off + 1) k

/-- Bounds-checked little-endian read of `n` bytes (a `DataView` get). -/
def readLE (buf : List Nat) (off n : Nat) : Option Nat :=
  if off + n ≤ buf.length then some (leVal buf off n) else none

/-- `DataView.getUint16(off, true)`. -/
def getUint16 (buf : List Nat) (off : Nat) : Option Nat := readLE buf off 2

/-- `DataView.getUint32(off, true)`. -/
def getUint32 (buf : List Nat) (off : Nat) : Option Nat := readLE buf off 4

/-- Two's-complement reading of a 16-bit value. -/
def toInt16 (u : Nat) : Int := if u < 2 ^ 15 then (u : Int) else (u : Int) - 2 ^ 16

/-- Two's-complement reading of a 32-bit value. -/
def toInt32 (u : Nat) : Int := if u < 2 ^ 31 then (u : Int) else (u : Int) - 2 ^ 32

/-- `DataView.getInt16(off, true)` (two's complement). -/
def getInt16 (buf : List Nat) (off : Nat) : Option Int :=
  (readLE buf off 2).map toInt16

/-- `DataView.getInt32(off, true)` (two's complement). -/
def getInt32 (buf : List Nat) (off : Nat) : Option Int :=
  (readLE buf off 4).map toInt32

/-- Exact value of an IEEE-754 binary32 bit pattern. -/
def decodeF32 (bits : Nat) : JsNum :=
  let s : Nat := bits / 2 ^ 31
  let e : Nat := bits / 2 ^ 23 % 2 ^ 8
  let m : Nat := bits % 2 ^ 23
  if e = 255 then
    if m = 0 then .inf (s == 0) else .nan
  else
    let numAbs : Int := if e = 0 then (m : Int) * 2 else ((2 : Int) ^ 23 + (m : Int)) * 2 ^ e
    .fin ⟨if s = 0 then numAbs else -numAbs, 2 ^ 150, by positivity⟩

/-- `DataView.getFloat32(off, true)`. -/
def getFloat32 (buf : List Nat) (off : Nat) : Option JsNum :=
  (readLE buf off 4).map decodeF32

/-- `0.3048` from `parseFrame`. -/
def FEET_TO_METERS : JsNum := .fin ⟨3048, 10000, by norm_num⟩

/-- The one kind of exception the decoder can throw (a JS `RangeError`). -/
inductive JsError where
  | rangeError
deriving DecidableEq

/-- JS `array[i]` on a `Uint8Array`: `some` byte for a valid in-bounds integer
index, `none` (JS `undefined`) otherwise. -/
def jsIndexOpt (arr : List Nat) : JsNum → Option Nat
  | .fin f =>
      if f.num % (f.den : Int) = 0 ∧ 0 ≤ f.num ∧ f.num / (f.den : Int) < (arr.length : Int) then
        some (arr.getD (f.num / (f.den : Int)).toNat 0)
      else none
  | _ => none

/-- The loop of `getAverage`, iterations `i = 0 .. n-1`: returns the
accumulated `sum` (adding an out-of-bounds `undefined` element makes the sum
NaN, as in JS) and `actualCount`. -/
def avgLoop (arr : List Nat) (index : JsNum) : Nat → JsNum × Nat
  | 0 => (.ofNat 0, 0)
  | n + 1 =>
      let p := avgLoop arr index n
      let currentIndex := jsAdd index (.ofNat n)
      if jsLt currentIndex (.ofNat arr.length) then
        match jsIndexOpt arr currentIndex with
        | some b => (jsAdd p.1 (.ofNat b), p.2 + 1)
        | none => (.nan, p.2 + 1)
      else p

/-- `getAverage(array, index, count).avg` from `app.js`. -/
def getAverage (arr : List Nat) (index : JsNum) (count : Nat) : JsNum :=
  let p := avgLoop arr index count
  if p.2 > 0 then jsDiv p.1 (.ofNat p.2) else .ofNat 0

/-- The header fields `parseFrame` reads for one frame (after the survey-type
filter); `ms_offset` is the raw 32-bit millisecond field, divided by 1000
at its use site. -/
structure FrameVals where
  min_range : JsNum
  max_range : JsNum
  water_depth : JsNum
  x : Int
  y : Int
  ms_offset : Nat
  frame_size : Nat
  header_size : Nat
deriving DecidableEq

/-- The per-variant field reads of `parseFrame`, in source order; `none` when
a read is out of bounds (never the case for a frame whose header fits in the
buffer). -/
def readFrameVals (buf : List Nat) (position : Nat) (isSl3 : Bool) : Option FrameVals :=
  if isSl3 then do
    let mn ← getFloat32 buf (position + 20)
    let mx ← getFloat32 buf (position + 24)
    let wd ← getFloat32 buf (position + 48)
    let x ← getInt32 buf (position + 92)
    let y ← getInt32 buf (position + 96)
    let ms ← getUint32 buf (position + 124)
    let fs ← getUint16 buf (position + 8)
    some ⟨jsMul mn FEET_TO_METERS, jsMul mx FEET_TO_METERS, jsMul wd FEET_TO_METERS,
          x, y, ms, fs, 168⟩
  else do
    let mn ← getFloat32 buf (position + 40)
    let mx ← getFloat32 buf (position + 44)
    let wd ← getFloat32 buf (position + 64)
    let x ← getInt32 buf (position + 108)
    let y ← getInt32 buf (position + 112)
    let ms ← getUint32 buf (position + 140)
    let fs ← getUint16 buf (position + 28)
    some ⟨jsMul mn FEET_TO_METERS, jsMul mx FEET_TO_METERS, jsMul wd FEET_TO_METERS,
          x, y, ms, fs, 144⟩

/-- One decoded output point.  `position`, `ms_offset` and `bottom_index` are
ghost fields recording values the JS code computes for the frame but does not
store on the returned object.  `timestamp` is in epoch seconds (the numeric
value wrapped by `new Date`). -/
structure Record where
  min_range : JsNum
  max_range : JsNum
  water_depth : JsNum
  x : Int
  y : Int
  timestamp : JsNum
  frame_size : Nat
  header_size : Nat
  bottom_density_1 : Option Nat
  bottom_density_10 : JsNum
  bottom_density_100 : JsNum
  position : Nat
  ms_offset : Nat
  bottom_index : JsNum
deriving DecidableEq

/-- The record `parseFrame` assembles on acceptance. -/
def buildRecord (v : FrameVals) (position startTime : Nat)
    (signalData : List Nat) (bottomIndex : JsNum) : Record :=
  { min_range := v.min_range
    max_range := v.max_range
    water_depth := v.water_depth
    x := v.x
    y := v.y
    timestamp := jsAdd (.ofNat startTime) (jsDiv (.ofNat v.ms_offset) (.ofNat 1000))
    frame_size := v.frame_size
    header_size := v.header_size
    bottom_density_1 := jsIndexOpt signalData bottomIndex
    bottom_density_10 := getAverage signalData bottomIndex 10
    bottom_density_100 := getAverage signalData bottomIndex 100
    position := position
    ms_offset := v.ms_offset
    bottom_index := bottomIndex }

/-- Offset of the 16-bit survey-type field inside a frame. -/
def surveyTypeOffset (isSl3 : Bool) : Nat := if isSl3 then 12 else 32

/-- The sonar signal byte run of a frame:
`new Uint8Array(view.buffer, position + header_size, frame_size - header_size)`
(only built when `header_size ≤ frame_size` and the frame end is in bounds). -/
def signalSlice (buf : List Nat) (position : Nat) (v : FrameVals) : List Nat :=
  (buf.drop (position + v.header_size)).take (v.frame_size - v.header_size)

/-- `Math.floor((signalData.length / (max_range - min_range)) * water_depth)`. -/
def bottomIndexOf (v : FrameVals) (signalData : List Nat) : JsNum :=
  jsFloor (jsMul (jsDiv (.ofNat signalData.length) (jsSub v.max_range v.min_range))
    v.water_depth)

/-- `parseFrame(view, position, isSl3, startTime)`: `.ok none` models the JS
`null` rejections, `.error` a thrown `RangeError` (an out-of-bounds `DataView`
read, or the `Uint8Array` slice construction when `frame_size < header_size`
or the frame end lies past the buffer). -/
def parseFrame (buf : List Nat) (position : Nat) (isSl3 : Bool) (startTime : Nat) :
    Except JsError (Option Record) :=
  match getUint16 buf (position + surveyTypeOffset isSl3) with
  | none => .error .rangeError
  | some surveyType =>
    if surveyType ≠ 0 then .ok none
    else match readFrameVals buf position isSl3 with
    | none => .error .rangeError
    | some v =>
      if v.x = 0 ∨ v.y = 0 then .ok none
      else if v.frame_size < v.header_size ∨ buf.length < position + v.frame_size then
        .error .rangeError
      else
        let signalData := signalSlice buf position v
        if jsLe v.max_range v.min_range then .ok none
        else
          let bottomIndex := bottomIndexOf v signalData
          if jsLt bottomIndex (.ofNat 0) || jsGe bottomIndex (.ofNat signalData.length) then
            .ok none
          else .ok (some (buildRecord v position startTime signalData bottomIndex))

/-- Frame header size per variant. -/
def frameHeaderSize (isSl3 : Bool) : Nat := if isSl3 then 168 else 144

/-- Offset of the self-declared 16-bit frame size inside a frame. -/
def frameSizeOffset (isSl3 : Bool) : Nat := if isSl3 then 8 else 28

/-- The frame-scanning `while` loop of `parseSonarFile`, with explicit fuel:
one unit per iteration, and the cursor strictly advances every iteration, so
`buf.length` units (what `parseSonarFile` passes) always suffice. -/
def scanFrames (buf : List Nat) (isSl3 : Bool) (startTime : Nat) (position : Nat) :
    Nat → Except JsError (List Record)
  | 0 => .ok []
  | fuel + 1 =>
    if position < buf.length then
      if buf.length < position + frameHeaderSize isSl3 then .ok []
      else match getUint16 buf (position + frameSizeOffset isSl3) with
      | none => .error .rangeError
      | some frameSize =>
        if frameSize = 0 ∨ buf.length < position + frameSize then .ok []
        else match parseFrame buf position isSl3 startTime with
        | .error e => .error e
        | .ok frameData =>
          match scanFrames buf isSl3 startTime (position + frameSize) fuel with
          | .error e => .error e
          | .ok rest =>
            match frameData with
            | some r => if jsLt (.ofNat 0) r.water_depth then .ok (r :: rest) else .ok rest
            | none => .ok rest
    else .ok []

/-- Characters after the last `.` of the file name
(`fileName.split('.').pop()`). -/
def lastComponent (cs : List Char) : List Char :=
  cs.foldl (fun acc c => if c = '.' then [] else acc ++ [c]) []

/-- `fileName.split('.').pop().toLowerCase()` as a character list
(ASCII lower-casing). -/
def fileExtLower (fileName : String) : List Char :=
  (lastComponent fileName.data).map Char.toLower

/-- `extension === 'sl3'`: the decoder treats the file as variant A (SL3)
exactly when this holds; every other name is decoded as variant B (SL2). -/
def isSl3Name (fileName : String) : Bool := fileExtLower fileName == ['s', 'l', '3']

/-- Offset (from the end of the 8-byte file header) of the 32-bit time-base
field read from the first frame. -/
def timeBaseOffset (isSl3 : Bool) : Nat := if isSl3 then 40 else 60

/-- Offset of the per-frame 32-bit millisecond time-offset field. -/
def msOffset (isSl3 : Bool) : Nat := if isSl3 then 124 else 140

/-- The signal run of a record, recovered from the buffer and the record's
ghost `position`. -/
def signalOf (buf : List Nat) (r : Record) : List Nat :=
  (buf.drop (r.position + r.header_size)).take (r.frame_size - r.header_size)

/-- `parseSonarFile(arrayBuffer, fileName)` from `app.js`: `.error` models a
thrown `RangeError`, `.ok` the returned array of records. -/
def parseSonarFile (buf : List Nat) (fileName : String) : Except JsError (List Record) :=
  let isSl3 := isSl3Name fileName
  match getInt16 buf 0 with
  | none => .error .rangeError
  | some _version =>
  match getInt16 buf 2 with
  | none => .error .rangeError
  | some _deviceId =>
  if buf.length ≤ 8 then .ok []
  else match getUint32 buf (8 + timeBaseOffset isSl3) with
  | none => .error .rangeError
  | some startTime => scanFrames buf isSl3 startTime 8 buf.length

/-! ### Semantics of the number model -/

/-- The rational value of a finite JS number (`none` for NaN and infinities). -/
def JsNum.toVal : JsNum → Option ℚ
  | .fin f => some f.toRat
  | _ => none

instance exceptDecEq {ε α : Type} [DecidableEq ε] [DecidableEq α] : DecidableEq (Except ε α)
  | .error a, .error b =>
      if h : a = b then isTrue (by rw [h]) else isFalse (by simp [h])
  | .ok a, .ok b =>
      if h : a = b then isTrue (by rw [h]) else isFalse (by simp [h])
  | .error _, .ok _ => isFalse (by simp)
  | .ok _, .error _ => isFalse (by simp)

/-! ### Concrete test data -/

/-- Build a buffer of `len` bytes from a byte map. -/
def mkBuf (len : Nat) (f : Nat → Nat) : List Nat := (List.range len).map f

/-- Byte map of `sampleBuf`: one valid variant-B primary-channel frame at
position 8 with `frame_size = 148`, `min_range = 0 ft`, `max_range = 2 ft`,
`water_depth = 1 ft`, `x = y = 1`, time base `1700000000`, millisecond
offset `5000`, and signal bytes `[10, 20, 30, 40]`. -/
def sampleByte (i : Nat) : Nat :=
  if i = 36 then 148
  else if i = 55 then 64
  else if i = 74 then 128
  else if i = 75 then 63
  else if i = 116 then 1
  else if i = 120 then 1
  else if i = 69 then 241
  else if i = 70 then 83
  else if i = 71 then 101
  else if i = 148 then 136
  else if i = 149 then 19
  else if i = 152 then 10
  else if i = 153 then 20
  else if i = 154 then 30
  else if i = 155 then 40
  else 0

/-- A 156-byte variant-B buffer with one accepted frame. -/
def sampleBuf : List Nat := mkBuf 156 sampleByte

/-- Byte map of `nanBuf`: a variant-B frame with `frame_size = 144` (empty
signal run), `min_range = 1 ft`, `max_range = NaN` (bytes `7FC00000`),
`water_depth = 2 ft` and `x = y = 1`. -/
def nanByte (i : Nat) : Nat :=
  if i = 36 then 144
  else if i = 50 then 128
  else if i = 51 then 63
  else if i = 54 then 192
  else if i = 55 then 127
  else if i = 75 then 64
  else if i = 116 then 1
  else if i = 120 then 1
  else 0

/-- A 152-byte variant-B buffer whose only frame has a NaN `max_range`. -/
def nanBuf : List Nat := mkBuf 152 nanByte

/-- Byte map of `crashBuf`: a variant-B frame that declares
`frame_size = 50`, smaller than the 144-byte header, with survey type 0 and
non-zero coordinates. -/
def crashByte (i : Nat) : Nat :=
  if i = 36 then 50
  else if i = 116 then 1
  else if i = 120 then 1
  else 0

/-- A 152-byte variant-B buffer whose frame makes the decoder build a
negative-length signal slice. -/
def crashBuf : List Nat := mkBuf 152 crashByte

/-- Byte map of `rejBuf`: like `sampleByte` but with `x = y = 0`, so the
frame is rejected for missing GPS fix. -/
def rejByte (i : Nat) : Nat :=
  if i = 36 then 148
  else if i = 55 then 64
  else if i = 74 then 128
  else if i = 75 then 63
  else if i = 69 then 241
  else if i = 70 then 83
  else if i = 71 then 101
  else if i = 148 then 136
  else if i = 149 then 19
  else if i = 152 then 10
  else if i = 153 then 20
  else if i = 154 then 30
  else if i = 155 then 40
  else 0

/-- A 156-byte variant-B buffer whose only frame has no GPS fix. -/
def rejBuf : List Nat := mkBuf 156 rejByte

/-- A default record (used only as a `headD` fallback). -/
def emptyRecord : Record :=
  ⟨.nan, .nan, .nan, 0, 0, .nan, 0, 0, none, .nan, .nan, 0, 0, .nan⟩

/-- The records decoded from `sampleBuf`. -/
def sampleRecs : List Record := (parseSonarFile sampleBuf "f.sl2").toOption.getD []

/-- The single record decoded from `sampleBuf`. -/
def sampleRec : Record := sampleRecs.headD emptyRecord

/-- The records decoded from `nanBuf`. -/
def nanRecs : List Record := (parseSonarFile nanBuf "f.sl2").toOption.getD []

/-- The single record decoded from `nanBuf`. -/
def nanRec : Record := nanRecs.headD emptyRecord

/-- The exact fraction `sampleRec.min_range` holds (0 metres). -/
def sampleMinF : Frac := ⟨0, 2 ^ 150 * 10000, by positivity⟩

/-- The exact fraction `sampleRec.max_range` holds (0.6096 metres). -/
def sampleMaxF : Frac := ⟨2 ^ 151 * 3048, 2 ^ 150 * 10000, by positivity⟩

/-- The exact fraction `sampleRec.water_depth` holds (0.3048 metres). -/
def sampleDepthF : Frac := ⟨2 ^ 150 * 3048, 2 ^ 150 * 10000, by positivity⟩

/-- The frame values the decoder reads for `rejBuf`'s frame. -/
def rejVals : FrameVals :=
  ⟨.fin sampleMinF, .fin sampleMaxF, .fin sampleDepthF, 0, 0, 5000, 148, 144⟩

theorem Frac.ext_iff {a b : Frac} : a = b ↔ a.num = b.num ∧ a.den = b.den := by
  constructor
  · rintro rfl
    exact ⟨rfl, rfl⟩
  · rcases a with ⟨an, ad, ha⟩
    rcases b with ⟨bn, bd, hb⟩
    rintro ⟨h1, h2⟩
    simp_all

theorem Frac.den_q_pos (f : Frac) : (0 : ℚ) < (f.den : ℚ) := by
  exact_mod_cast f.den_pos

theorem Frac.den_q_ne (f : Frac) : (f.den : ℚ) ≠ 0 := (Frac.den_q_pos f).ne'

theorem Frac.toRat_ofInt (n : Int) : (Frac.ofInt n).toRat = (n : ℚ) := by
  simp [Frac.ofInt, Frac.toRat]

theorem Frac.toRat_lt_iff (a b : Frac) : a.toRat < b.toRat ↔ a.num * b.den < b.num * a.den := by
  rw [Frac.toRat, Frac.toRat, div_lt_div_iff₀ a.den_q_pos b.den_q_pos]
  constructor <;> intro h <;> exact_mod_cast h

theorem Frac.toRat_le_iff (a b : Frac) : a.toRat ≤ b.toRat ↔ a.num * b.den ≤ b.num * a.den := by
  rw [Frac.toRat, Frac.toRat, div_le_div_iff₀ a.den_q_pos b.den_q_pos]
  constructor <;> intro h <;> exact_mod_cast h

theorem Frac.toRat_pos_iff (f : Frac) : 0 < f.toRat ↔ 0 < f.num := by
  have h := Frac.toRat_lt_iff (Frac.ofInt 0) f
  rw [Frac.toRat_ofInt] at h
  simpa [Frac.ofInt] using h

theorem Frac.toRat_add (a b : Frac) : (a.add b).toRat = a.toRat + b.toRat := by
  rw [Frac.add, Frac.toRat, Frac.toRat, Frac.toRat, div_add_div _ _ a.den_q_ne b.den_q_ne]
  push_cast
  ring_nf

theorem Frac.toRat_neg (a : Frac) : a.neg.toRat = -a.toRat := by
  rw [Frac.neg, Frac.toRat, Frac.toRat]
  push_cast
  ring_nf

theorem Frac.toRat_mul (a b : Frac) : (a.mul b).toRat = a.toRat * b.toRat := by
  rw [Frac.mul, Frac.toRat, Frac.toRat, Frac.toRat, div_mul_div_comm]
  push_cast
  ring_nf

theorem Frac.toRat_divPos (a b : Frac) (h : 0 < b.num) :
    (a.divPos b h).toRat = a.toRat / b.toRat := by
  have hb : ((b.num.toNat : ℚ)) = (b.num : ℚ) := by exact_mod_cast Int.toNat_of_nonneg h.le
  have h3 : (b.num : ℚ) ≠ 0 := by exact_mod_cast h.ne'
  rw [Frac.divPos, Frac.toRat, Frac.toRat, Frac.toRat]
  push_cast
  rw [hb]
  field_simp

theorem jsLt_fin_iff (a b : Frac) : jsLt (.fin a) (.fin b) = true ↔ a.toRat < b.toRat := by
  rw [jsLt, Frac.toRat_lt_iff]
  simp

theorem jsLe_fin_iff (a b : Frac) : jsLe (.fin a) (.fin b) = true ↔ a.toRat ≤ b.toRat := by
  rw [jsLe, Frac.toRat_le_iff]
  simp

theorem jsAdd_fin (a b : Frac) : jsAdd (.fin a) (.fin b) = .fin (a.add b) := rfl

theorem jsSub_fin (a b : Frac) : jsSub (.fin a) (.fin b) = .fin (a.add b.neg) := rfl

theorem jsMul_fin (a b : Frac) : jsMul (.fin a) (.fin b) = .fin (a.mul b) := rfl

theorem jsDiv_fin_pos (a b : Frac) (h : 0 < b.num) :
    jsDiv (.fin a) (.fin b) = .fin (a.divPos b h) := by
  rw [jsDiv]
  simp [h]

theorem jsFloor_fin (a : Frac) : jsFloor (.fin a) = .ofInt ⌊a.toRat⌋ := by
  rw [jsFloor, Frac.toRat, Rat.floor_intCast_div_natCast,
    Int.fdiv_eq_ediv _ (by positivity)]

theorem frac_ofInt_add (m n : Int) : (Frac.ofInt m).add (Frac.ofInt n) = Frac.ofInt (m + n) := by
  rw [Frac.ext_iff]
  simp [Frac.ofInt, Frac.add]

theorem jsAdd_ofInt (m n : Int) : jsAdd (.ofInt m) (.ofInt n) = .ofInt (m + n) := by
  rw [JsNum.ofInt, JsNum.ofInt, jsAdd_fin, frac_ofInt_add]
  rfl

theorem jsAdd_ofNat (m n : Nat) : jsAdd (.ofNat m) (.ofNat n) = .ofNat (m + n) := by
  rw [JsNum.ofNat, JsNum.ofNat, jsAdd_ofInt]
  rw [JsNum.ofNat]
  norm_cast

theorem jsLt_ofNat (m n : Nat) : jsLt (.ofNat m) (.ofNat n) = decide (m < n) := by
  simp only [JsNum.ofNat, JsNum.ofInt, Frac.ofInt, jsLt]
  rw [decide_eq_decide]
  omega

theorem ofInt_nonneg_eq_ofNat (z : Int) (h : 0 ≤ z) : JsNum.ofInt z = .ofNat z.toNat := by
  rw [JsNum.ofNat]
  congr 1
  omega

theorem jsIndexOpt_ofNat_lt (arr : List Nat) (m : Nat) (h : m < arr.length) :
    jsIndexOpt arr (.ofNat m) = some (arr.getD m 0) := by
  simp only [JsNum.ofNat, JsNum.ofInt, Frac.ofInt, jsIndexOpt]
  have hcond : (m : Int) % ((1 : Nat) : Int) = 0 ∧ 0 ≤ (m : Int) ∧
      (m : Int) / ((1 : Nat) : Int) < (arr.length : Int) := by
    push_cast
    omega
  rw [if_pos hcond]
  have hm : ((m : Int) / ((1 : Nat) : Int)).toNat = m := by
    push_cast
    omega
  rw [hm]

theorem avgLoop_spec (arr : List Nat) (n : Nat) (k : Nat) :
    avgLoop arr (.ofNat n) k =
      (.ofNat (((arr.drop n).take k).sum), min k (arr.length - n)) := by
  induction k with
  | zero => simp [avgLoop]
  | succ k ih =>
    rw [avgLoop]
    simp only [ih, jsAdd_ofNat, jsLt_ofNat]
    by_cases h : n + k < arr.length
    · rw [if_pos (by simpa using h)]
      rw [jsIndexOpt_ofNat_lt arr (n + k) h]
      have hsum : ((arr.drop n).take (k + 1)).sum
          = ((arr.drop n).take k).sum + arr.getD (n + k) 0 := by
        rw [List.take_succ, List.sum_append]
        congr 1
        rw [List.getElem?_drop]
        rw [List.getElem?_eq_getElem (by omega), List.getD_eq_getElem arr 0 (by omega)]
        simp
      have hmin : min (k + 1) (arr.length - n) = min k (arr.length - n) + 1 := by omega
      simp only [hsum, hmin]
    · rw [if_neg (by simpa using h)]
      have hge : (arr.drop n).length ≤ k := by
        rw [List.length_drop]
        omega
      rw [List.take_of_length_le hge, List.take_of_length_le (by omega)]
      have hmin : min (k + 1) (arr.length - n) = min k (arr.length - n) := by omega
      rw [hmin]

theorem getAverage_toVal (arr : List Nat) (n k : Nat) (hn : n < arr.length) (hk : 0 < k) :
    (getAverage arr (.ofNat n) k).toVal =
      some ((((arr.drop n).take k).sum : ℚ) / ((min k (arr.length - n) : Nat) : ℚ)) := by
  have hc : 0 < min k (arr.length - n) := by omega
  rw [getAverage, avgLoop_spec]
  simp only
  rw [if_pos hc]
  have hpos : 0 < (Frac.ofInt ((min k (arr.length - n) : Nat) : Int)).num := by
    simp only [Frac.ofInt]
    omega
  rw [JsNum.ofNat, JsNum.ofNat, JsNum.ofInt, JsNum.ofInt, jsDiv_fin_pos _ _ hpos]
  rw [JsNum.toVal, Frac.toRat_divPos, Frac.toRat_ofInt, Frac.toRat_ofInt]
  push_cast [List.map_map, Function.comp_def, Int.cast_natCast]
  ring_nf

/-! ### Structure of `parseFrame` and the frame scan -/

theorem readFrameVals_sl3 (buf : List Nat) (p : Nat) (h : p + 168 ≤ buf.length) :
    readFrameVals buf p true = some
      ⟨jsMul (decodeF32 (leVal buf (p + 20) 4)) FEET_TO_METERS,
       jsMul (decodeF32 (leVal buf (p + 24) 4)) FEET_TO_METERS,
       jsMul (decodeF32 (leVal buf (p + 48) 4)) FEET_TO_METERS,
       toInt32 (leVal buf (p + 92) 4), toInt32 (leVal buf (p + 96) 4),
       leVal buf (p + 124) 4, leVal buf (p + 8) 2, 168⟩ := by
  have h20 : p + 20 + 4 ≤ buf.length := by omega
  have h24 : p + 24 + 4 ≤ buf.length := by omega
  have h48 : p + 48 + 4 ≤ buf.length := by omega
  have h92 : p + 92 + 4 ≤ buf.length := by omega
  have h96 : p + 96 + 4 ≤ buf.length := by omega
  have h124 : p + 124 + 4 ≤ buf.length := by omega
  have h8 : p + 8 + 2 ≤ buf.length := by omega
  simp [readFrameVals, getFloat32, getInt32, getUint32, getUint16, readLE,
    h20, h24, h48, h92, h96, h124, h8]

theorem readFrameVals_sl2 (buf : List Nat) (p : Nat) (h : p + 144 ≤ buf.length) :
    readFrameVals buf p false = some
      ⟨jsMul (decodeF32 (leVal buf (p + 40) 4)) FEET_TO_METERS,
       jsMul (decodeF32 (leVal buf (p + 44) 4)) FEET_TO_METERS,
       jsMul (decodeF32 (leVal buf (p + 64) 4)) FEET_TO_METERS,
       toInt32 (leVal buf (p + 108) 4), toInt32 (leVal buf (p + 112) 4),
       leVal buf (p + 140) 4, leVal buf (p + 28) 2, 144⟩ := by
  have h40 : p + 40 + 4 ≤ buf.length := by omega
  have h44 : p + 44 + 4 ≤ buf.length := by omega
  have h64 : p + 64 + 4 ≤ buf.length := by omega
  have h108 : p + 108 + 4 ≤ buf.length := by omega
  have h112 : p + 112 + 4 ≤ buf.length := by omega
  have h140 : p + 140 + 4 ≤ buf.length := by omega
  have h28 : p + 28 + 2 ≤ buf.length := by omega
  simp [readFrameVals, getFloat32, getInt32, getUint32, getUint16, readLE,
    h40, h44, h64, h108, h112, h140, h28]

theorem parseFrame_ok_some {buf : List Nat} {p : Nat} {isSl3 : Bool} {t : Nat} {r : Record}
    (h : parseFrame buf p isSl3 t = .ok (some r)) :
    ∃ v, readFrameVals buf p isSl3 = some v ∧
      getUint16 buf (p + surveyTypeOffset isSl3) = some 0 ∧
      v.x ≠ 0 ∧ v.y ≠ 0 ∧
      v.header_size ≤ v.frame_size ∧ p + v.frame_size ≤ buf.length ∧
      jsLe v.max_range v.min_range = false ∧
      jsLt (bottomIndexOf v (signalSlice buf p v)) (.ofNat 0) = false ∧
      jsGe (bottomIndexOf v (signalSlice buf p v)) (.ofNat (signalSlice buf p v).length) = false ∧
      r = buildRecord v p t (signalSlice buf p v) (bottomIndexOf v (signalSlice buf p v)) := by
  unfold parseFrame at h
  split at h
  · exact absurd h (by simp)
  next st hst =>
    split at h
    · exact absurd h (by simp)
    next hstz =>
      split at h
      · exact absurd h (by simp)
      next v hv =>
        split at h
        · exact absurd h (by simp)
        next hxy =>
          split at h
          · exact absurd h (by simp)
          next hsz =>
            split at h
            · exact absurd h (by simp)
            next hrange =>
              dsimp only at h
              split at h
              · exact absurd h (by simp)
              next hbi =>
                refine ⟨v, hv, ?_, ?_, ?_, ?_, ?_, ?_, ?_, ?_, ?_⟩
                · rw [hst]
                  congr
                  omega
                · intro hx
                  exact hxy (Or.inl hx)
                · intro hy
                  exact hxy (Or.inr hy)
                · omega
                · omega
                · simpa using hrange
                · simpa using (Bool.or_eq_false_iff.mp (by simpa using hbi)).1
                · simpa using (Bool.or_eq_false_iff.mp (by simpa using hbi)).2
                · simpa using h.symm

theorem scanFrames_mem {buf : List Nat} {isSl3 : Bool} {t : Nat} :
    ∀ {fuel pos : Nat} {l : List Record} {r : Record},
      scanFrames buf isSl3 t pos fuel = .ok l → r ∈ l →
      ∃ q, q + frameHeaderSize isSl3 ≤ buf.length ∧
        parseFrame buf q isSl3 t = .ok (some r) ∧
        jsLt (.ofNat 0) r.water_depth = true := by
  intro fuel
  induction fuel with
  | zero =>
    intro pos l r h hr
    rw [scanFrames] at h
    cases h
    cases hr
  | succ fuel ih =>
    intro pos l r h hr
    rw [scanFrames] at h
    split at h
    · split at h
      · cases h
        cases hr
      · split at h
        · exact absurd h (by simp)
        next fs hfs =>
          split at h
          · cases h
            cases hr
          next hcont =>
            split at h
            · exact absurd h (by simp)
            next od hod =>
              split at h
              · exact absurd h (by simp)
              next rest hrest =>
                split at h
                next r0 =>
                  split at h
                  next hwd =>
                    cases h
                    rcases List.mem_cons.mp hr with hEq | hmem
                    · subst hEq
                      exact ⟨pos, by omega, hod, hwd⟩
                    · exact ih hrest hmem
                  · cases h
                    exact ih hrest hr
                · cases h
                  exact ih hrest hr
    · cases h
      cases hr

theorem parseSonarFile_mem {buf : List Nat} {name : String} {l : List Record} {r : Record}
    (h : parseSonarFile buf name = .ok l) (hr : r ∈ l) :
    ∃ t q, getUint32 buf (8 + timeBaseOffset (isSl3Name name)) = some t ∧
      q + frameHeaderSize (isSl3Name name) ≤ buf.length ∧
      parseFrame buf q (isSl3Name name) t = .ok (some r) ∧
      jsLt (.ofNat 0) r.water_depth = true := by
  unfold parseSonarFile at h
  split at h
  · exact absurd h (by simp)
  split at h
  · exact absurd h (by simp)
  split at h
  · cases h
    cases hr
  dsimp only at h
  split at h
  · exact absurd h (by simp)
  next t ht =>
    obtain ⟨q, hq, hpf, hwd⟩ := scanFrames_mem h hr
    exact ⟨t, q, ht, hq, hpf, hwd⟩

theorem jsLt_ofInt (a b : Int) : jsLt (.ofInt a) (.ofInt b) = decide (a < b) := by
  simp only [JsNum.ofInt, Frac.ofInt, jsLt]
  rw [decide_eq_decide]
  omega

theorem jsLe_ofInt (a b : Int) : jsLe (.ofInt a) (.ofInt b) = decide (a ≤ b) := by
  simp only [JsNum.ofInt, Frac.ofInt, jsLe]
  rw [decide_eq_decide]
  omega

theorem signalSlice_length {buf : List Nat} {p : Nat} {v : FrameVals}
    (h1 : v.header_size ≤ v.frame_size) (h2 : p + v.frame_size ≤ buf.length) :
    (signalSlice buf p v).length = v.frame_size - v.header_size := by
  simp only [signalSlice, List.length_take, List.length_drop]
  omega

theorem bottomIndexOf_fin {v : FrameVals} (sig : List Nat) {mn mx w : Frac}
    (hmn : v.min_range = .fin mn) (hmx : v.max_range = .fin mx) (hw : v.water_depth = .fin w)
    (hrange : jsLe v.max_range v.min_range = false) :
    bottomIndexOf v sig = .ofInt ⌊(sig.length : ℚ) / (mx.toRat - mn.toRat) * w.toRat⌋ := by
  have hmm : mn.toRat < mx.toRat := by
    rw [hmx, hmn] at hrange
    by_contra hc
    push_neg at hc
    rw [(jsLe_fin_iff mx mn).mpr hc] at hrange
    cases hrange
  rw [bottomIndexOf, hmx, hmn, hw, jsSub_fin]
  have hd : 0 < (mx.add mn.neg).num := by
    rw [← Frac.toRat_pos_iff, Frac.toRat_add, Frac.toRat_neg]
    linarith
  rw [JsNum.ofNat, JsNum.ofInt, jsDiv_fin_pos _ _ hd, jsMul_fin, jsFloor_fin]
  congr 1
  rw [Frac.toRat_mul, Frac.toRat_divPos, Frac.toRat_ofInt, Frac.toRat_add, Frac.toRat_neg]
  push_cast
  ring_nf

theorem bottomIndex_bounds {v : FrameVals} {sig : List Nat} {mn mx w : Frac}
    (hmn : v.min_range = .fin mn) (hmx : v.max_range = .fin mx) (hw : v.water_depth = .fin w)
    (hrange : jsLe v.max_range v.min_range = false)
    (hlt0 : jsLt (bottomIndexOf v sig) (.ofNat 0) = false)
    (hgeL : jsGe (bottomIndexOf v sig) (.ofNat sig.length) = false) :
    ∃ n : Nat, bottomIndexOf v sig = .ofNat n ∧ n < sig.length ∧
      (n : Int) = ⌊(sig.length : ℚ) / (mx.toRat - mn.toRat) * w.toRat⌋ := by
  have hbi := bottomIndexOf_fin sig hmn hmx hw hrange
  set z := ⌊(sig.length : ℚ) / (mx.toRat - mn.toRat) * w.toRat⌋ with hz
  rw [hbi] at hlt0 hgeL
  have hz0 : 0 ≤ z := by
    rw [show (JsNum.ofNat 0) = JsNum.ofInt 0 from rfl, jsLt_ofInt] at hlt0
    simpa using hlt0
  have hzL : z < (sig.length : Int) := by
    rw [jsGe, show (JsNum.ofNat sig.length) = JsNum.ofInt (sig.length : Int) from rfl,
      jsLe_ofInt] at hgeL
    simpa using hgeL
  refine ⟨z.toNat, ?_, by omega, by omega⟩
  rw [hbi, ofInt_nonneg_eq_ofNat _ hz0]

theorem record_invariants {buf : List Nat} {p : Nat} {isSl3 : Bool} {t : Nat} {r : Record}
    (h : parseFrame buf p isSl3 t = .ok (some r)) :
    r.x ≠ 0 ∧ r.y ≠ 0 ∧
    (∀ mn mx w : Frac, r.min_range = .fin mn → r.max_range = .fin mx →
      r.water_depth = .fin w →
      jsLt r.min_range r.max_range = true ∧
      ∃ n : Nat, r.bottom_index = .ofNat n ∧ n < r.frame_size - r.header_size) := by
  obtain ⟨v, hv, hsv, hx, hy, hsz, hin, hrange, hlt0, hgeL, hrec⟩ := parseFrame_ok_some h
  subst hrec
  simp only [buildRecord] at *
  refine ⟨hx, hy, ?_⟩
  intro mn mx w hmn hmx hw
  constructor
  · rw [hmn, hmx] at hrange
    rw [hmn, hmx, jsLt_fin_iff]
    by_contra hc
    push_neg at hc
    rw [(jsLe_fin_iff mx mn).mpr hc] at hrange
    cases hrange
  · obtain ⟨n, hn, hnL, hnz⟩ := bottomIndex_bounds hmn hmx hw hrange hlt0 hgeL
    refine ⟨n, hn, ?_⟩
    rw [signalSlice_length hsz hin] at hnL
    exact hnL

/-! ### Claim theorems -/

/-- Claim C5: the frame scan stops with exactly the records accepted so far
(nothing more, no error) as soon as fewer than `header_size` bytes remain, or
the 16-bit frame size read at the variant offset is zero, or the declared
frame end lies past the buffer; otherwise it decodes the frame at the current
position and advances the cursor by exactly `frame_size`. -/
theorem c5_scan_stop_and_advance :
    ∀ (buf : List Nat) (isSl3 : Bool) (t pos fuel : Nat),
      (buf.length < pos + frameHeaderSize isSl3 →
        scanFrames buf isSl3 t pos (fuel + 1) = .ok []) ∧
      (∀ fs, pos + frameHeaderSize isSl3 ≤ buf.length →
        getUint16 buf (pos + frameSizeOffset isSl3) = some fs →
        (fs = 0 ∨ buf.length < pos + fs) →
        scanFrames buf isSl3 t pos (fuel + 1) = .ok []) ∧
      (∀ fs od rest, pos + frameHeaderSize isSl3 ≤ buf.length →
        getUint16 buf (pos + frameSizeOffset isSl3) = some fs →
        fs ≠ 0 → pos + fs ≤ buf.length →
        parseFrame buf pos isSl3 t = .ok od →
        scanFrames buf isSl3 t (pos + fs) fuel = .ok rest →
        scanFrames buf isSl3 t pos (fuel + 1) =
          .ok (match od with
               | some r => if jsLt (.ofNat 0) r.water_depth then r :: rest else rest
               | none => rest)) := by
  intro buf isSl3 t pos fuel
  have hhs : 0 < frameHeaderSize isSl3 := by cases isSl3 <;> simp [frameHeaderSize]
  refine ⟨?_, ?_, ?_⟩
  · intro h
    rw [scanFrames]
    by_cases hp : pos < buf.length
    · rw [if_pos hp, if_pos (by omega)]
    · rw [if_neg hp]
  · intro fs h1 h2 h3
    rw [scanFrames, if_pos (by omega), if_neg (by omega), h2]
    simp only
    rw [if_pos h3]
  · intro fs od rest h1 h2 h3 h4 h5 h6
    rw [scanFrames, if_pos (by omega), if_neg (by omega), h2]
    simp only
    rw [if_neg (by omega), h5, h6]
    cases od with
    | none => rfl
    | some r =>
      by_cases hc : jsLt (.ofNat 0) r.water_depth = true
      · dsimp only
        rw [if_pos hc, if_pos hc]
      · dsimp only
        rw [if_neg hc, if_neg hc]

/-- Claim C6: a content-rejected frame (`parseFrame` returns `null`) is
skipped locally — the scan result from its position equals the scan result
starting right after it at `position + frame_size`, so every other frame's
record is untouched — and each rejection rule (non-zero survey type; zero
`x` or `y` coordinate; `max_range <= min_range`; bottom index outside
`[0, signal_length)`), tested in that order, short-circuits to `null`. -/
theorem c6_rejection_is_local :
    (∀ (buf : List Nat) (isSl3 : Bool) (t pos fs fuel : Nat),
      pos + frameHeaderSize isSl3 ≤ buf.length →
      getUint16 buf (pos + frameSizeOffset isSl3) = some fs →
      fs ≠ 0 → pos + fs ≤ buf.length →
      parseFrame buf pos isSl3 t = .ok none →
      scanFrames buf isSl3 t pos (fuel + 1) = scanFrames buf isSl3 t (pos + fs) fuel) ∧
    (∀ (buf : List Nat) (p : Nat) (isSl3 : Bool) (t st : Nat),
      getUint16 buf (p + surveyTypeOffset isSl3) = some st → st ≠ 0 →
      parseFrame buf p isSl3 t = .ok none) ∧
    (∀ (buf : List Nat) (p : Nat) (isSl3 : Bool) (t : Nat) (v : FrameVals),
      getUint16 buf (p + surveyTypeOffset isSl3) = some 0 →
      readFrameVals buf p isSl3 = some v → (v.x = 0 ∨ v.y = 0) →
      parseFrame buf p isSl3 t = .ok none) ∧
    (∀ (buf : List Nat) (p : Nat) (isSl3 : Bool) (t : Nat) (v : FrameVals),
      getUint16 buf (p + surveyTypeOffset isSl3) = some 0 →
      readFrameVals buf p isSl3 = some v → ¬(v.x = 0 ∨ v.y = 0) →
      v.header_size ≤ v.frame_size → p + v.frame_size ≤ buf.length →
      jsLe v.max_range v.min_range = true →
      parseFrame buf p isSl3 t = .ok none) ∧
    (∀ (buf : List Nat) (p : Nat) (isSl3 : Bool) (t : Nat) (v : FrameVals),
      getUint16 buf (p + surveyTypeOffset isSl3) = some 0 →
      readFrameVals buf p isSl3 = some v → ¬(v.x = 0 ∨ v.y = 0) →
      v.header_size ≤ v.frame_size → p + v.frame_size ≤ buf.length →
      jsLe v.max_range v.min_range = false →
      (jsLt (bottomIndexOf v (signalSlice buf p v)) (.ofNat 0) ||
        jsGe (bottomIndexOf v (signalSlice buf p v))
          (.ofNat (signalSlice buf p v).length)) = true →
      parseFrame buf p isSl3 t = .ok none) := by
  refine ⟨?_, ?_, ?_, ?_, ?_⟩
  · intro buf isSl3 t pos fs fuel h1 h2 h3 h4 h5
    have hhs : 0 < frameHeaderSize isSl3 := by cases isSl3 <;> simp [frameHeaderSize]
    rw [scanFrames, if_pos (by omega), if_neg (by omega), h2]
    simp only
    rw [if_neg (by omega), h5]
    cases hres : scanFrames buf isSl3 t (pos + fs) fuel <;> rfl
  · intro buf p isSl3 t st h1 h2
    unfold parseFrame
    rw [h1]
    simp only
    rw [if_pos h2]
  · intro buf p isSl3 t v h1 h2 hxy
    unfold parseFrame
    rw [h1]
    simp only
    rw [if_neg (by omega), h2]
    simp only
    rw [if_pos hxy]
  · intro buf p isSl3 t v h1 h2 hxy hfs hend hle
    unfold parseFrame
    rw [h1]
    simp only
    rw [if_neg (by omega), h2]
    simp only
    rw [if_neg hxy, if_neg (by omega)]
    rw [if_pos hle]
  · intro buf p isSl3 t v h1 h2 hxy hfs hend hle hbi
    unfold parseFrame
    rw [h1]
    simp only
    rw [if_neg (by omega), h2]
    simp only
    rw [if_neg hxy, if_neg (by omega)]
    rw [if_neg (by rw [hle]; exact Bool.false_ne_true), if_pos hbi]

theorem getInt16_none {buf : List Nat} {off : Nat} (h : buf.length < off + 2) :
    getInt16 buf off = none := by
  unfold getInt16 readLE
  rw [if_neg (by omega)]
  rfl

theorem getInt16_some {buf : List Nat} {off : Nat} (h : off + 2 ≤ buf.length) :
    getInt16 buf off = some (toInt16 (leVal buf off 2)) := by
  unfold getInt16 readLE
  rw [if_pos (by omega)]
  rfl

theorem getUint32_none {buf : List Nat} {off : Nat} (h : buf.length < off + 4) :
    getUint32 buf off = none := by
  unfold getUint32 readLE
  rw [if_neg (by omega)]

theorem getUint32_some {buf : List Nat} {off : Nat} (h : off + 4 ≤ buf.length) :
    getUint32 buf off = some (leVal buf off 4) := by
  unfold getUint32 readLE
  rw [if_pos (by omega)]

/-- Claim C3 (amended): the short-buffer behavior of the parser is: fewer
than 4 bytes (the two 16-bit file-header reads) throws a range error; 4 to 8
bytes returns the empty sequence; more than 8 bytes but too few for the
32-bit time-base read throws a range error; and a buffer long enough for the
time base but too short for one frame header after the 8-byte file header
returns the empty sequence.  (The claim's `TooShort` failure for every
buffer under 8 bytes, and for every buffer lacking a full frame header, does
not hold: see the counterexample.) -/
theorem c3_short_buffer_behavior :
    ∀ (buf : List Nat) (name : String),
      buf.length < 8 + frameHeaderSize (isSl3Name name) →
      parseSonarFile buf name =
        (if buf.length < 4 then .error .rangeError
         else if buf.length ≤ 8 then .ok []
         else if buf.length < 12 + timeBaseOffset (isSl3Name name) then .error .rangeError
         else .ok []) := by
  intro buf name h
  unfold parseSonarFile
  dsimp only
  by_cases h2 : buf.length < 2
  · conv_rhs => rw [if_pos (show buf.length < 4 by omega)]
    rw [getInt16_none (by omega)]
  · by_cases h4 : buf.length < 4
    · conv_rhs => rw [if_pos h4]
      rw [getInt16_some (by omega), getInt16_none (by omega)]
    · by_cases h8 : buf.length ≤ 8
      · conv_rhs => rw [if_neg h4, if_pos h8]
        rw [getInt16_some (by omega), getInt16_some (by omega)]
        dsimp only
        rw [if_pos h8]
      · by_cases htb : buf.length < 12 + timeBaseOffset (isSl3Name name)
        · conv_rhs => rw [if_neg h4, if_neg h8, if_pos htb]
          rw [getInt16_some (by omega), getInt16_some (by omega)]
          dsimp only
          rw [if_neg h8, getUint32_none (by omega)]
        · conv_rhs => rw [if_neg h4, if_neg h8, if_neg htb]
          rw [getInt16_some (by omega), getInt16_some (by omega)]
          dsimp only
          rw [if_neg h8, getUint32_some (by omega)]
          dsimp only
          obtain ⟨m, hm⟩ : ∃ m, buf.length = m + 1 := ⟨buf.length - 1, by omega⟩
          rw [hm, scanFrames, if_pos (by omega), if_pos (by omega)]

/-- Claim C4 (corrected): a buffer of 9 or more bytes that is still too
short for the 32-bit time-base read at the variant's fixed offset makes the
parse throw a range error — it does not return an empty record sequence
(only a buffer of at most 8 bytes short-circuits to the empty sequence). -/
theorem c4_short_time_base_errors :
    ∀ (buf : List Nat) (name : String),
      9 ≤ buf.length → buf.length < 12 + timeBaseOffset (isSl3Name name) →
      parseSonarFile buf name = .error .rangeError := by
  intro buf name h9 htb
  unfold parseSonarFile
  dsimp only
  rw [getInt16_some (by omega), getInt16_some (by omega)]
  dsimp only
  rw [if_neg (by omega), getUint32_none (by omega)]

/-- Claim C10: the format variant is selected from the file name alone — a
name whose final dot-separated suffix lower-cases to `sl3` decodes as
variant A, and every other name (unknown extensions, or no extension at all)
silently decodes as variant B; the parse depends on the name only through
this test and no name yields an unsupported-format error. -/
theorem c10_variant_from_extension :
    (∀ (buf : List Nat) (n1 n2 : String), isSl3Name n1 = isSl3Name n2 →
      parseSonarFile buf n1 = parseSonarFile buf n2) ∧
    (∀ (buf : List Nat) (name : String),
      parseSonarFile buf name =
        parseSonarFile buf (if isSl3Name name then "a.sl3" else "a.sl2")) ∧
    isSl3Name "A.SL3" = true ∧ isSl3Name "track.sl2" = false ∧
    isSl3Name "noextension" = false ∧ isSl3Name "x.sl3.bak" = false ∧
    isSl3Name "mixed.Sl3" = true := by
  have hcongr : ∀ (buf : List Nat) (n1 n2 : String), isSl3Name n1 = isSl3Name n2 →
      parseSonarFile buf n1 = parseSonarFile buf n2 := by
    intro buf n1 n2 h
    unfold parseSonarFile
    rw [h]
  refine ⟨hcongr, ?_, by decide, by decide, by decide, by decide, by decide⟩
  intro buf name
  by_cases hb : isSl3Name name = true
  · rw [if_pos hb]
    exact hcongr buf name "a.sl3" (hb.trans (by decide : isSl3Name "a.sl3" = true).symm)
  · rw [if_neg hb]
    have hb2 : isSl3Name name = false := by
      revert hb
      cases isSl3Name name <;> simp
    exact hcongr buf name "a.sl2" (hb2.trans (by decide : isSl3Name "a.sl2" = false).symm)

/-- Claim C2 (amended): every record the parser returns satisfies
`water_depth > 0` (as the JS comparison) as well as `x ≠ 0` and `y ≠ 0`; and
whenever the three 32-bit float fields are finite, also
`max_range > min_range` and the computed bottom index is an integer in
`[0, signal_length)` with `signal_length = frame_size - header_size`.  The
two latter invariants do not hold unconditionally: a NaN float field slips
through the JS comparisons (see the counterexample). -/
theorem c2_record_invariants :
    ∀ (buf : List Nat) (name : String) (l : List Record) (r : Record),
      parseSonarFile buf name = .ok l → r ∈ l →
      jsLt (.ofNat 0) r.water_depth = true ∧ r.x ≠ 0 ∧ r.y ≠ 0 ∧
      (∀ mn mx w : Frac, r.min_range = .fin mn → r.max_range = .fin mx →
        r.water_depth = .fin w →
        jsLt r.min_range r.max_range = true ∧
        ∃ n : Nat, r.bottom_index = .ofNat n ∧ n < r.frame_size - r.header_size) := by
  intro buf name l r h hr
  obtain ⟨t, q, ht, hq, hpf, hwd⟩ := parseSonarFile_mem h hr
  obtain ⟨hx, hy, hfin⟩ := record_invariants hpf
  exact ⟨hwd, hx, hy, hfin⟩

/-- Claim C7: every accepted record's timestamp is the single time base (the
32-bit little-endian value read once at the fixed per-variant offset past the
8-byte file header, from the first physical frame, whether or not that frame
is accepted) plus the record's own 32-bit millisecond field divided by 1000;
timestamps are never accumulated across frames. -/
theorem c7_timestamp_from_single_time_base :
    ∀ (buf : List Nat) (name : String) (l : List Record) (r : Record),
      parseSonarFile buf name = .ok l → r ∈ l →
      ∃ t0, getUint32 buf (8 + timeBaseOffset (isSl3Name name)) = some t0 ∧
        getUint32 buf (r.position + msOffset (isSl3Name name)) = some r.ms_offset ∧
        r.timestamp = jsAdd (.ofNat t0) (jsDiv (.ofNat r.ms_offset) (.ofNat 1000)) := by
  intro buf name l r h hr
  obtain ⟨t, q, ht, hq, hpf, hwd⟩ := parseSonarFile_mem h hr
  obtain ⟨v, hv, hsv, hx, hy, hsz, hin, hrange, hlt0, hgeL, hrec⟩ := parseFrame_ok_some hpf
  subst hrec
  refine ⟨t, ht, ?_, by simp [buildRecord]⟩
  simp only [buildRecord]
  cases hb : isSl3Name name with
  | false =>
    rw [hb] at hv hq
    have hq2 : q + 144 ≤ buf.length := by simpa [frameHeaderSize] using hq
    have hread := readFrameVals_sl2 buf q hq2
    rw [hv] at hread
    obtain rfl := (Option.some.inj hread).symm
    simp only [msOffset]
    simp [getUint32, readLE, show q + 140 + 4 ≤ buf.length by omega]
  | true =>
    rw [hb] at hv hq
    have hq2 : q + 168 ≤ buf.length := by simpa [frameHeaderSize] using hq
    have hread := readFrameVals_sl3 buf q hq2
    rw [hv] at hread
    obtain rfl := (Option.some.inj hread).symm
    simp only [msOffset]
    simp [getUint32, readLE, show q + 124 + 4 ≤ buf.length by omega]

/-- Claim C8: for every accepted record with finite float fields and signal
run of length `L = frame_size - header_size`, the bottom index is
`floor(L / (max_range − min_range) * water_depth)` on the metric
(feet-converted) values, `bottom_density_1` is the signal byte at that index,
and each `bottom_density_k` (k = 10, 100) is the arithmetic mean of the
window `[bottom_index, bottom_index + k)` clipped to the end of the signal,
with divisor equal to the number of in-bounds bytes actually read. -/
theorem c8_bottom_index_and_densities :
    ∀ (buf : List Nat) (name : String) (l : List Record) (r : Record) (mn mx w : Frac),
      parseSonarFile buf name = .ok l → r ∈ l →
      r.min_range = .fin mn → r.max_range = .fin mx → r.water_depth = .fin w →
      ∃ n : Nat,
        r.bottom_index = .ofNat n ∧
        (n : Int) = ⌊((r.frame_size - r.header_size : Nat) : ℚ) /
          (mx.toRat - mn.toRat) * w.toRat⌋ ∧
        n < r.frame_size - r.header_size ∧
        r.bottom_density_1 = some ((signalOf buf r).getD n 0) ∧
        r.bottom_density_10.toVal =
          some (((((signalOf buf r).drop n).take 10).sum : ℚ) /
            ((min 10 (r.frame_size - r.header_size - n) : Nat) : ℚ)) ∧
        r.bottom_density_100.toVal =
          some (((((signalOf buf r).drop n).take 100).sum : ℚ) /
            ((min 100 (r.frame_size - r.header_size - n) : Nat) : ℚ)) := by
  intro buf name l r mn mx w h hr hmn hmx hw
  obtain ⟨t, q, ht, hq, hpf, hwd⟩ := parseSonarFile_mem h hr
  obtain ⟨v, hv, hsv, hx, hy, hsz, hin, hrange, hlt0, hgeL, hrec⟩ := parseFrame_ok_some hpf
  subst hrec
  simp only [buildRecord] at hmn hmx hw
  obtain ⟨n, hn, hnL, hnz⟩ := bottomIndex_bounds hmn hmx hw hrange hlt0 hgeL
  have hL : (signalSlice buf q v).length = v.frame_size - v.header_size :=
    signalSlice_length hsz hin
  refine ⟨n, ?_, ?_, ?_, ?_, ?_, ?_⟩
  · show bottomIndexOf v (signalSlice buf q v) = JsNum.ofNat n
    exact hn
  · show (n : Int) = ⌊((v.frame_size - v.header_size : Nat) : ℚ) /
      (mx.toRat - mn.toRat) * w.toRat⌋
    rw [← hL]
    exact hnz
  · show n < v.frame_size - v.header_size
    omega
  · show jsIndexOpt (signalSlice buf q v) (bottomIndexOf v (signalSlice buf q v)) =
      some ((signalSlice buf q v).getD n 0)
    rw [hn, jsIndexOpt_ofNat_lt _ _ hnL]
  · show (getAverage (signalSlice buf q v) (bottomIndexOf v (signalSlice buf q v)) 10).toVal =
      some (((((signalSlice buf q v).drop n).take 10).sum : ℚ) /
        ((min 10 (v.frame_size - v.header_size - n) : Nat) : ℚ))
    rw [hn, getAverage_toVal _ _ _ hnL (by norm_num), hL]
  · show (getAverage (signalSlice buf q v) (bottomIndexOf v (signalSlice buf q v)) 100).toVal =
      some (((((signalSlice buf q v).drop n).take 100).sum : ℚ) /
        ((min 100 (v.frame_size - v.header_size - n) : Nat) : ℚ))
    rw [hn, getAverage_toVal _ _ _ hnL (by norm_num), hL]

/-- Claim C1 (code bug): the parse can crash, contrary to the never-crash
property.  Decoding `crashBuf` — whose single frame declares
`frame_size = 50`, smaller than the 144-byte variant-B header, and passes
the survey-type and coordinate checks — throws a `RangeError` (the code
constructs a `Uint8Array` of negative length), and decoding a 10-byte
truncated buffer throws a `RangeError` from the unguarded time-base read,
instead of returning a record sequence with fewer records. -/
theorem c1_crash_eval :
    parseSonarFile crashBuf "f.sl2" = .error .rangeError ∧
    parseSonarFile (List.replicate 10 0) "f.sl2" = .error .rangeError := by
  decide

/-- Claim C2 counterexample: `nanBuf` decodes to exactly one record whose
`max_range` is NaN, so `max_range > min_range` fails and the computed bottom
index is NaN rather than an integer in `[0, signal_length)`, while the
record still passes the `water_depth > 0` filter. -/
theorem c2_counterexample :
    parseSonarFile nanBuf "f.sl2" = .ok [nanRec] ∧
    jsLt nanRec.min_range nanRec.max_range = false ∧
    nanRec.max_range = .nan ∧ nanRec.bottom_index = .nan ∧
    jsLt (.ofNat 0) nanRec.water_depth = true := by
  decide

/-- Claim C2 witness: the record decoded from `sampleBuf` satisfies the
amended invariants. -/
theorem c2_witness :
    jsLt (.ofNat 0) sampleRec.water_depth = true ∧ sampleRec.x ≠ 0 ∧ sampleRec.y ≠ 0 ∧
    jsLt sampleRec.min_range sampleRec.max_range = true := by
  have h := c2_record_invariants sampleBuf "f.sl2" sampleRecs sampleRec (by decide) (by decide)
  refine ⟨h.1, h.2.1, h.2.2.1, ?_⟩
  exact (h.2.2.2 sampleMinF sampleMaxF sampleDepthF (by decide) (by decide) (by decide)).1

/-- Claim C3 counterexample: a 6-byte buffer parses to the empty sequence
(not a `TooShort` error), and so does a 100-byte buffer that lacks a full
frame header after the file header. -/
theorem c3_counterexample :
    parseSonarFile (List.replicate 6 0) "f.sl2" = .ok [] ∧
    parseSonarFile (List.replicate 100 0) "f.sl2" = .ok [] := by
  decide

/-- Claim C3 witness: the short-buffer characterization applied to a 7-byte
buffer. -/
theorem c3_witness : parseSonarFile (List.replicate 7 0) "f.sl2" = .ok [] := by
  have h := c3_short_buffer_behavior (List.replicate 7 0) "f.sl2" (by decide)
  exact h.trans (by decide)

/-- Claim C4 counterexample: a 20-byte buffer (at least 8 bytes, but too
short for the variant-B time-base read at offset 68) makes the parse throw,
not return an empty sequence. -/
theorem c4_counterexample :
    parseSonarFile (List.replicate 20 0) "f.sl2" = .error .rangeError := by
  decide

/-- Claim C4 witness: the amended statement applied to a 30-byte buffer. -/
theorem c4_witness : parseSonarFile (List.replicate 30 0) "f.sl2" = .error .rangeError := by
  exact c4_short_time_base_errors (List.replicate 30 0) "f.sl2" (by decide) (by decide)

/-- Claim C5 witness: the stop rule applied to a 30-byte buffer (fewer than
`header_size` bytes remain at position 8), and the step rule applied to
`sampleBuf` (one frame of size 148 is decoded and the cursor advances to
156). -/
theorem c5_witness :
    scanFrames (List.replicate 30 0) false 0 8 1 = .ok [] ∧
    scanFrames sampleBuf false 1700000000 8 4 = .ok [sampleRec] := by
  constructor
  · exact (c5_scan_stop_and_advance (List.replicate 30 0) false 0 8 0).1 (by decide)
  · have h := (c5_scan_stop_and_advance sampleBuf false 1700000000 8 3).2.2 148
      (some sampleRec) [] (by decide) (by decide) (by decide) (by decide) (by decide) (by decide)
    exact h.trans (by decide)

/-- Claim C6 witness: the frame of `rejBuf` (`x = y = 0`) is rejected via
the GPS rule and the scan from position 8 equals the scan from 156. -/
theorem c6_witness :
    parseFrame rejBuf 8 false 0 = .ok none ∧
    scanFrames rejBuf false 0 8 5 = scanFrames rejBuf false 0 156 4 := by
  constructor
  · exact c6_rejection_is_local.2.2.1 rejBuf 8 false 0 rejVals (by decide) (by decide) (by decide)
  · exact c6_rejection_is_local.1 rejBuf false 0 8 148 4 (by decide) (by decide) (by decide)
      (by decide) (by decide)

/-- Claim C7 witness: the sample record's timestamp is the time base
`1700000000` read at offset 68 plus its own 5000 ms offset over 1000. -/
theorem c7_witness :
    getUint32 sampleBuf (8 + timeBaseOffset (isSl3Name "f.sl2")) = some 1700000000 ∧
    sampleRec.ms_offset = 5000 ∧
    sampleRec.timestamp = jsAdd (.ofNat 1700000000) (jsDiv (.ofNat 5000) (.ofNat 1000)) := by
  obtain ⟨t0, h1, h2, h3⟩ := c7_timestamp_from_single_time_base sampleBuf "f.sl2"
    sampleRecs sampleRec (by decide) (by decide)
  have hx : getUint32 sampleBuf (8 + timeBaseOffset (isSl3Name "f.sl2"))
      = some 1700000000 := by decide
  have ht0 : t0 = 1700000000 := Option.some.inj (h1.symm.trans hx)
  subst ht0
  have hms : sampleRec.ms_offset = 5000 := by decide
  rw [hms] at h3
  exact ⟨h1, hms, h3⟩

/-- Claim C8 witness: for `sampleBuf` the bottom index is 2
(`floor(4 / 0.6096 * 0.3048)`), `bottom_density_1` is the signal byte 30,
and `bottom_density_10` is the 2-sample clipped average `(30 + 40) / 2 = 35`. -/
theorem c8_witness :
    sampleRec.bottom_index = .ofNat 2 ∧
    sampleRec.bottom_density_1 = some 30 ∧
    sampleRec.bottom_density_10.toVal = some 35 := by
  obtain ⟨n, hbi, hz, hlt, hd1, hd10, hd100⟩ := c8_bottom_index_and_densities sampleBuf
    "f.sl2" sampleRecs sampleRec sampleMinF sampleMaxF sampleDepthF
    (by decide) (by decide) (by decide) (by decide) (by decide)
  have h2 : sampleRec.bottom_index = .ofNat 2 := by decide
  have hn : n = 2 := by
    rw [hbi] at h2
    simp only [JsNum.ofNat, JsNum.ofInt, Frac.ofInt, JsNum.fin.injEq, Frac.mk.injEq] at h2
    omega
  subst hn
  refine ⟨hbi, ?_, ?_⟩
  · rw [hd1]
    decide
  · rw [hd10]
    have hs : (((signalOf sampleBuf sampleRec).drop 2).take 10).sum = 70 := by decide
    have hm : min 10 (sampleRec.frame_size - sampleRec.header_size - 2) = 2 := by decide
    rw [hs, hm]
    norm_num

/-- Claim C10 witness: an upper-case `.SL3` name decodes identically to a
lower-case `.sl3` name. -/
theorem c10_witness : parseSonarFile [] "A.SL3" = parseSonarFile [] "b.sl3" := by
  exact c10_variant_from_extension.1 [] "A.SL3" "b.sl3" (by decide)

end SonarWeb
